import Mathlib

/-!
Verification of the log-consumer core of `streaming_pipeline`
(`src/consumer/consumer.py`): the regex-based log-line parser
(`log_pattern`, `parse_log`), the schema bootstrap (`create_log_table`)
and the ingestion loop (`consume_logs`).

The Python regex is embedded as an executable matcher over `List Char`.
Each piece of `log_pattern` is translated by a combinator with the same
backtracking behaviour as the Python `re` engine on this pattern:

* exact counts (`\d{4}` ...) by `exactN`;
* greedy classes followed by a character that the class excludes
  (`\d+`, `[A-Z_]+`, `[^\s]+`, `[^|\s]*`) by maximal-munch `munch` /
  `munch1` -- giving back a character would make the following literal
  match a character of the class, which is impossible, so committing to
  the maximal run is observationally equal to the engine's backtracking;
* the non-greedy groups `[^|]*?` by `lazyStar`, which tries the shortest
  capture first and retries the full continuation on longer captures,
  exactly as the engine does;
* `log_pattern.match` anchors at position 0 only (Python `re.match`):
  input remaining after the last group is ignored.

Character classes model the ASCII meaning of `\d`, `\s` (the Python
pattern is only ever applied to ASCII log lines).
-/

set_option maxRecDepth 8000

/-- Model of the regex class `\d` (ASCII digits). -/
def isDigitC (c : Char) : Bool := c.isDigit

/-- Model of the regex class `\s` (ASCII whitespace: space, tab, LF, CR, VT, FF). -/
def isSpaceC (c : Char) : Bool :=
  c == ' ' || c == '\t' || c == '\n' || c == '\r' || c == Char.ofNat 11 || c == Char.ofNat 12

/-- The class `[A-Z_]` of `event_type`. -/
def isEventC (c : Char) : Bool := c.isUpper || c == '_'

/-- The class `[^\s]` of `user_id` and `ip_address`. -/
def notSpace (c : Char) : Bool := ! isSpaceC c

/-- The class `[^|]` of the non-greedy captures. -/
def notPipe (c : Char) : Bool := ! (c == '|')

/-- The class `[^|\s]` of `action`, `status`, `session_id`, `request_id`, `trace_id`. -/
def notPipeSpace (c : Char) : Bool := ! (c == '|') && ! isSpaceC c

/-- Characters of a string literal, used for fixed chunks of the pattern. -/
def strL (s : String) : List Char := s.toList

/-- Match a literal character sequence, returning the rest of the input. -/
def lit : List Char → List Char → Option (List Char)
  | [], s => some s
  | _ :: _, [] => none
  | c :: cs, d :: ds => if d == c then lit cs ds else none

/-- Match exactly `n` characters of class `p` (regex `p{n}`). -/
def exactN (p : Char → Bool) : Nat → List Char → Option (List Char × List Char)
  | 0, s => some ([], s)
  | _ + 1, [] => none
  | n + 1, c :: s =>
    if p c then (exactN p n s).map (fun q => (c :: q.1, q.2)) else none

/-- Maximal run of characters of class `p` (regex greedy `p*`). -/
def munch (p : Char → Bool) : List Char → List Char × List Char
  | [] => ([], [])
  | c :: s =>
    if p c then
      let m := munch p s
      (c :: m.1, m.2)
    else ([], c :: s)

/-- `Option` sequencing, written as a plain function so long matcher chains
elaborate without the overhead of the monad classes. -/
def obind : Option α → (α → Option β) → Option β
  | none, _ => none
  | some a, f => f a

/-- Non-empty maximal run of characters of class `p` (regex greedy `p+`). -/
def munch1 (p : Char → Bool) (s : List Char) : Option (List Char × List Char) :=
  match munch p s with
  | ([], _) => none
  | (c :: v, r) => some (c :: v, r)

/-- Non-greedy star (regex `p*?`): try the continuation `k` on the shortest
capture first, extending the capture one `p`-character at a time while the
continuation fails, exactly as the backtracking engine does. -/
def lazyStar (p : Char → Bool) (k : List Char → List Char → Option α) (s : List Char) :
    Option α :=
  (List.rec
    (motive := fun _ => (List Char → List Char → Option α) → Option α)
    (fun k0 => match k0 [] [] with | some r => some r | none => none)
    (fun c rest ih k0 =>
      match k0 [] (c :: rest) with
      | some r => some r
      | none => if p c then ih (fun v r2 => k0 (c :: v) r2) else none)
    s) k

/-- The sign alternative `[+-]` of the timestamp offset. -/
def matchSign (s : List Char) : Option (Char × List Char) :=
  match s with
  | [] => none
  | c :: r => if c == '+' || c == '-' then some (c, r) else none

/-- Group `timestamp`: `\d{4}-\d{2}-\d{2}T\d{2}:\d{2}:\d{2}\.\d+[+-]\d{2}:\d{2}`. -/
def matchTimestamp (s : List Char) : Option (List Char × List Char) :=
  obind (exactN isDigitC 4 s) fun a =>
  obind (lit ['-'] a.2) fun s1 =>
  obind (exactN isDigitC 2 s1) fun b =>
  obind (lit ['-'] b.2) fun s2 =>
  obind (exactN isDigitC 2 s2) fun c =>
  obind (lit ['T'] c.2) fun s3 =>
  obind (exactN isDigitC 2 s3) fun d =>
  obind (lit [':'] d.2) fun s4 =>
  obind (exactN isDigitC 2 s4) fun e =>
  obind (lit [':'] e.2) fun s5 =>
  obind (exactN isDigitC 2 s5) fun f =>
  obind (lit ['.'] f.2) fun s6 =>
  obind (munch1 isDigitC s6) fun g =>
  obind (matchSign g.2) fun h =>
  obind (exactN isDigitC 2 h.2) fun i =>
  obind (lit [':'] i.2) fun s7 =>
  obind (exactN isDigitC 2 s7) fun j =>
  some (a.1 ++ '-' :: (b.1 ++ '-' :: (c.1 ++ 'T' :: (d.1 ++ ':' :: (e.1 ++ ':' ::
        (f.1 ++ '.' :: (g.1 ++ h.1 :: (i.1 ++ ':' :: j.1))))))), j.2)

/-- Group `log_id`: `ACT-\d{8}T\d{6}-\d+`. -/
def matchLogId (s : List Char) : Option (List Char × List Char) :=
  obind (lit ['A', 'C', 'T', '-'] s) fun s1 =>
  obind (exactN isDigitC 8 s1) fun a =>
  obind (lit ['T'] a.2) fun s2 =>
  obind (exactN isDigitC 6 s2) fun b =>
  obind (lit ['-'] b.2) fun s3 =>
  obind (munch1 isDigitC s3) fun c =>
  some ('A' :: 'C' :: 'T' :: '-' :: (a.1 ++ 'T' :: (b.1 ++ '-' :: c.1)), c.2)

/-- The 18 capture groups of `log_pattern`, in pattern order, as raw substrings. -/
structure RawGroups where
  timestamp : List Char
  log_id : List Char
  event_type : List Char
  user_id : List Char
  username : List Char
  ip_address : List Char
  country : List Char
  region : List Char
  city : List Char
  coordinates : List Char
  os : List Char
  browser : List Char
  device_type : List Char
  action : List Char
  status : List Char
  session_id : List Char
  request_id : List Char
  trace_id : List Char
deriving DecidableEq, Repr

/-- Literal chunk ` | ` between the first three fields. -/
def barSep : List Char := strL " | "

/-- Literal chunk ` | user_id=`. -/
def kUserId : List Char := strL " | user_id="

/-- Literal chunk ` username=`. -/
def kUsername : List Char := strL " username="

/-- Literal chunk ` ip_address=`. -/
def kIp : List Char := strL " ip_address="

/-- Literal chunk ` country=`. -/
def kCountry : List Char := strL " country="

/-- Literal chunk ` region=`. -/
def kRegion : List Char := strL " region="

/-- Literal chunk ` city=`. -/
def kCity : List Char := strL " city="

/-- Literal chunk ` coordinates=`. -/
def kCoordinates : List Char := strL " coordinates="

/-- Literal chunk ` os=`. -/
def kOs : List Char := strL " os="

/-- Literal chunk ` browser=`. -/
def kBrowser : List Char := strL " browser="

/-- Literal chunk ` device_type=`. -/
def kDevice : List Char := strL " device_type="

/-- Literal chunk ` | action=`. -/
def kActionSep : List Char := strL " | action="

/-- Literal chunk ` status=`. -/
def kStatus : List Char := strL " status="

/-- Literal chunk ` | session_id=`. -/
def kSession : List Char := strL " | session_id="

/-- Literal chunk ` request_id=`. -/
def kRequest : List Char := strL " request_id="

/-- Literal chunk ` trace_id=`. -/
def kTrace : List Char := strL " trace_id="

/-- A non-greedy `[^|]*?` capture followed by a fixed separator chunk, then
the continuation `next` on the capture and the remaining input. -/
def lazyField (sep : List Char) (next : List Char → List Char → Option RawGroups)
    (s : List Char) : Option RawGroups :=
  lazyStar notPipe (fun v r => obind (lit sep r) (next v)) s

/-- The tail of the pattern after the chunk ` | action=`:
`[^|\s]* status=[^|\s]* \| session_id=[^|\s]* request_id=[^|\s]* trace_id=[^|\s]*`
(the input remaining after `trace_id` is ignored: `re.match` does not anchor
at the end). -/
def tailStage (g : RawGroups) (s : List Char) : Option RawGroups :=
  let m1 := munch notPipeSpace s
  obind (lit kStatus m1.2) fun t1 =>
  let m2 := munch notPipeSpace t1
  obind (lit kSession m2.2) fun t2 =>
  let m3 := munch notPipeSpace t2
  obind (lit kRequest m3.2) fun t3 =>
  let m4 := munch notPipeSpace t3
  obind (lit kTrace m4.2) fun t4 =>
  let m5 := munch notPipeSpace t4
  some { g with action := m1.1, status := m2.1, session_id := m3.1,
                request_id := m4.1, trace_id := m5.1 }

/-- `log_pattern.match` (consumer.py lines 23-42): anchored at position 0,
returning the 18 captures on success. -/
def regexMatch (s0 : List Char) : Option RawGroups :=
  obind (matchTimestamp s0) fun a =>
  obind (lit barSep a.2) fun s1 =>
  obind (matchLogId s1) fun b =>
  obind (lit barSep b.2) fun s2 =>
  obind (munch1 isEventC s2) fun c =>
  obind (lit kUserId c.2) fun s3 =>
  obind (munch1 notSpace s3) fun d =>
  obind (lit kUsername d.2) fun s4 =>
  lazyField kIp (fun un s5 =>
    obind (munch1 notSpace s5) fun e =>
    obind (lit kCountry e.2) fun s6 =>
    lazyField kRegion (fun co s7 =>
      lazyField kCity (fun rg s8 =>
        lazyField kCoordinates (fun ci s9 =>
          lazyField kOs (fun cd s10 =>
            lazyField kBrowser (fun osv s11 =>
              lazyField kDevice (fun br s12 =>
                lazyField kActionSep (fun dv s13 =>
                  tailStage ⟨a.1, b.1, c.1, d.1, un, e.1, co, rg, ci, cd,
                             osv, br, dv, [], [], [], [], []⟩ s13)
                  s12)
                s11)
              s10)
            s9)
          s8)
        s7)
      s6)
    s4

/-- The record built by a successful `parse_log`: the first three captures
verbatim, every other capture with the empty string collapsed to absent. -/
structure LogRecord where
  timestamp : List Char
  log_id : List Char
  event_type : List Char
  user_id : Option (List Char)
  username : Option (List Char)
  ip_address : Option (List Char)
  country : Option (List Char)
  region : Option (List Char)
  city : Option (List Char)
  coordinates : Option (List Char)
  os : Option (List Char)
  browser : Option (List Char)
  device_type : Option (List Char)
  action : Option (List Char)
  status : Option (List Char)
  session_id : Option (List Char)
  request_id : Option (List Char)
  trace_id : Option (List Char)
deriving DecidableEq, Repr

/-- `replace_empty_with_none` of `parse_log` (consumer.py lines 122-123):
a falsy (empty) capture becomes `None`. -/
def replace_empty_with_none (v : List Char) : Option (List Char) :=
  if v = [] then none else some v

/-- The tuple `parse_log` builds from the captures (consumer.py lines 125-144). -/
def toRecord (g : RawGroups) : LogRecord :=
  ⟨g.timestamp, g.log_id, g.event_type,
   replace_empty_with_none g.user_id,
   replace_empty_with_none g.username,
   replace_empty_with_none g.ip_address,
   replace_empty_with_none g.country,
   replace_empty_with_none g.region,
   replace_empty_with_none g.city,
   replace_empty_with_none g.coordinates,
   replace_empty_with_none g.os,
   replace_empty_with_none g.browser,
   replace_empty_with_none g.device_type,
   replace_empty_with_none g.action,
   replace_empty_with_none g.status,
   replace_empty_with_none g.session_id,
   replace_empty_with_none g.request_id,
   replace_empty_with_none g.trace_id⟩

/-- `parse_log` (consumer.py lines 117-147), result value only. -/
def parse_log (log_message : List Char) : Option LogRecord :=
  match regexMatch log_message with
  | some g => some (toRecord g)
  | none => none

/-- The text of the `logging.warning` that `parse_log` emits on failure
(consumer.py line 146). -/
def invalidMsg (log_message : List Char) : List Char :=
  strL "Log format is invalid: " ++ log_message

/-- `parse_log` together with the log lines it emits: on failure it returns
`None` and itself logs one warning carrying the raw line; on success it logs
nothing. -/
def parse_log_out (log_message : List Char) : Option LogRecord × List (List Char) :=
  match regexMatch log_message with
  | some g => (some (toRecord g), [])
  | none => (none, [invalidMsg log_message])

/-- `true` iff the input is empty or starts with a character outside class `p`:
the boundary condition under which a maximal munch of `p` stops exactly at the
front of `r`. -/
def headOk (p : Char → Bool) (r : List Char) : Bool :=
  match r with
  | [] => true
  | c :: _ => ! p c

/-- `true` iff `sep` occurs in `v ++ sep` only at the very end: no proper
prefix of `v` is already followed by the separator text.  Under this condition
the non-greedy capture of a constructed line stops exactly at `v`. -/
def noEarlySep (v sep : List Char) : Bool :=
  (List.range v.length).all fun i => (lit sep (List.drop i (v ++ sep))).isNone

/-- A timestamp token of the grammar, built from its digit groups, followed by
the rest of the line `t`. -/
def tsBlock (y mo dd hh mi ss frac : List Char) (sg : Char) (oh om t : List Char) : List Char :=
  y ++ '-' :: (mo ++ '-' :: (dd ++ 'T' :: (hh ++ ':' :: (mi ++ ':' :: (ss ++ '.' ::
    (frac ++ sg :: (oh ++ ':' :: (om ++ t))))))))

/-- The timestamp capture produced from the digit groups of `tsBlock`. -/
def tsVal (y mo dd hh mi ss frac : List Char) (sg : Char) (oh om : List Char) : List Char :=
  y ++ '-' :: (mo ++ '-' :: (dd ++ 'T' :: (hh ++ ':' :: (mi ++ ':' :: (ss ++ '.' ::
    (frac ++ sg :: (oh ++ ':' :: om)))))))

/-- A `log_id` token of the grammar (`ACT-<d8>T<d6>-<seq>`) followed by the
rest of the line `t`. -/
def lidBlock (d8 d6 seq t : List Char) : List Char :=
  ['A', 'C', 'T', '-'] ++ (d8 ++ 'T' :: (d6 ++ '-' :: (seq ++ t)))

/-- The `log_id` capture produced from the digit groups of `lidBlock`. -/
def lidVal (d8 d6 seq : List Char) : List Char :=
  'A' :: 'C' :: 'T' :: '-' :: (d8 ++ 'T' :: (d6 ++ '-' :: seq))

/-- A line of the grammar of spec section 4.1, built from the eighteen field
values (the timestamp and log id from their digit groups), followed by an
arbitrary suffix `ext` (`ext = []` gives exactly a grammatical line). -/
def mkLine (y mo dd hh mi ss frac : List Char) (sg : Char)
    (oh om d8 d6 seq ev uid un ip co rg ci cd osv br dv ac st se rq tr ext : List Char) :
    List Char :=
  tsBlock y mo dd hh mi ss frac sg oh om
    (barSep ++ lidBlock d8 d6 seq
      (barSep ++ (ev ++ (kUserId ++ (uid ++ (kUsername ++ (un ++ (kIp ++ (ip ++
       (kCountry ++ (co ++ (kRegion ++ (rg ++ (kCity ++ (ci ++ (kCoordinates ++ (cd ++
       (kOs ++ (osv ++ (kBrowser ++ (br ++ (kDevice ++ (dv ++ (kActionSep ++ (ac ++
       (kStatus ++ (st ++ (kSession ++ (se ++ (kRequest ++ (rq ++
       (kTrace ++ (tr ++ ext)))))))))))))))))))))))))))))))))

/-- The numeric value of `confluent_kafka.KafkaError._PARTITION_EOF`
(librdkafka `RD_KAFKA_RESP_ERR__PARTITION_EOF`). -/
def PARTITION_EOF : Int := -191

/-- One outcome of `consumer.poll` in the ingestion loop (consumer.py
lines 175-187): no message within the timeout, a stream-level error with its
numeric code, or a delivered payload.  A delivered payload carries the
verdict `insertOk` of the external store for the insert this message would
trigger: `false` models `insert_log` raising a `StoreWriteError`. -/
inductive PollEvent where
  | noMessage : PollEvent
  | kafkaError (code : Int) : PollEvent
  | message (payload : List Char) (insertOk : Bool) : PollEvent
deriving DecidableEq, Repr

/-- Why a run of the ingestion loop stopped: the finite poll script was
consumed (the real loop would keep polling), a fatal stream error was raised
(consumer.py line 185), or a record insert failed (line 191 raising through
line 196). -/
inductive StopCause where
  | exhausted : StopCause
  | streamFatal (code : Int) : StopCause
  | storeFailure : StopCause
deriving DecidableEq, Repr

/-- Observable outcome of a run of the ingestion loop over a poll script:
the records persisted in order, the payloads discarded as malformed, why the
run stopped, the poll events never polled, and whether the `finally` block
closed the Kafka consumer and the PostgreSQL connection (consumer.py
lines 197-200). -/
structure RunResult where
  inserted : List LogRecord
  invalid : List (List Char)
  cause : StopCause
  leftover : List PollEvent
  consumerClosed : Bool
  connClosed : Bool
deriving DecidableEq, Repr

/-- The ingestion loop `consume_logs` (consumer.py lines 166-200) run over a
finite script of poll outcomes: `None` and end-of-partition events continue
the loop; any other stream error raises `KafkaException` (fatal); a payload
is parsed, a parse failure is discarded (no insert, loop continues) and a
parsed record is inserted, a failing insert raising out of the loop.  Every
exit path runs the `finally` block closing both connections. -/
def runLoop : List PollEvent → RunResult
  | [] => ⟨[], [], StopCause.exhausted, [], true, true⟩
  | e :: rest =>
    match e with
    | PollEvent.noMessage => runLoop rest
    | PollEvent.kafkaError code =>
      if code = PARTITION_EOF then runLoop rest
      else ⟨[], [], StopCause.streamFatal code, rest, true, true⟩
    | PollEvent.message payload ok =>
      match parse_log payload with
      | none =>
        let r := runLoop rest
        { r with invalid := payload :: r.invalid }
      | some lr =>
        if ok then
          let r := runLoop rest
          { r with inserted := lr :: r.inserted }
        else ⟨[], [], StopCause.storeFailure, rest, true, true⟩

/-- A table of the relational store: its name and column list. -/
structure TableDef where
  name : List Char
  columns : List (List Char)
deriving DecidableEq, Repr

/-- The relational store visible to the consumer: its list of tables. -/
structure StoreState where
  tables : List TableDef
deriving DecidableEq, Repr

/-- A DDL failure of the store (a plain `CREATE TABLE` of an existing name). -/
inductive SqlError where
  | duplicateTable : SqlError
deriving DecidableEq, Repr

/-- The column list of the `logs` table DDL (consumer.py lines 66-86). -/
def logsColumns : List (List Char) :=
  [strL "id", strL "timestamp", strL "log_id", strL "event_type", strL "user_id",
   strL "username", strL "ip_address", strL "country", strL "region", strL "city",
   strL "coordinates", strL "os", strL "browser", strL "device_type", strL "action",
   strL "status", strL "session_id", strL "request_id", strL "trace_id"]

/-- The `logs` table created by the schema bootstrap. -/
def logsTable : TableDef := ⟨strL "logs", logsColumns⟩

/-- `create_log_table` (consumer.py lines 60-93).  Modelled from the spec:
the semantics of the store executing `CREATE TABLE IF NOT EXISTS logs (...)`
(spec section 4.2: idempotent DDL, no failure when the table already exists)
is the external database's, not code of this repository; the statement text
itself is in the source. -/
def create_log_table (db : StoreState) : Except SqlError StoreState :=
  if db.tables.any (fun t => t.name == strL "logs") then Except.ok db
  else Except.ok ⟨db.tables ++ [logsTable]⟩

/-- A store with no tables. -/
def emptyStore : StoreState := ⟨[]⟩

/-- The number of tables named `logs` in the store. -/
def countLogsTables (db : StoreState) : Nat :=
  (db.tables.filter (fun t => t.name == strL "logs")).length

/-- The store after one schema bootstrap from empty. -/
def bootedStore : StoreState := ⟨[logsTable]⟩

/-- The example log line of spec section 8. -/
def exLine : List Char :=
  strL "2024-03-01T10:00:00.000+00:00 | ACT-20240301T100000-1 | LOGIN | user_id=u1 username=alice ip_address=1.2.3.4 country=US region= city= coordinates= os=Linux browser=Chrome device_type=desktop | action=login status=success | session_id=s1 request_id=r1 trace_id=t1"

/-- The record the example line of spec section 8 parses to. -/
def exRecord : LogRecord :=
  ⟨strL "2024-03-01T10:00:00.000+00:00", strL "ACT-20240301T100000-1", strL "LOGIN",
   some (strL "u1"), some (strL "alice"), some (strL "1.2.3.4"), some (strL "US"),
   none, none, none,
   some (strL "Linux"), some (strL "Chrome"), some (strL "desktop"),
   some (strL "login"), some (strL "success"),
   some (strL "s1"), some (strL "r1"), some (strL "t1")⟩

/-- The example line of spec section 8 with the `user_id` value supplied as
the empty string and every other field unchanged. -/
def emptyUserIdLine : List Char :=
  strL "2024-03-01T10:00:00.000+00:00 | ACT-20240301T100000-1 | LOGIN | user_id= username=alice ip_address=1.2.3.4 country=US region= city= coordinates= os=Linux browser=Chrome device_type=desktop | action=login status=success | session_id=s1 request_id=r1 trace_id=t1"

/-- The example line of spec section 8 with the `user_id` value `u|1`,
containing a pipe character. -/
def pipeUserIdLine : List Char :=
  strL "2024-03-01T10:00:00.000+00:00 | ACT-20240301T100000-1 | LOGIN | user_id=u|1 username=alice ip_address=1.2.3.4 country=US region= city= coordinates= os=Linux browser=Chrome device_type=desktop | action=login status=success | session_id=s1 request_id=r1 trace_id=t1"

/-- The record `pipeUserIdLine` parses to: the example record with
`user_id = u|1`. -/
def pipeUserIdRecord : LogRecord := { exRecord with user_id := some (strL "u|1") }

/-- The example line with the ` | ` separator before the `action` segment
missing (a deviating line: missing segment separator). -/
def missingSepLine : List Char :=
  strL "2024-03-01T10:00:00.000+00:00 | ACT-20240301T100000-1 | LOGIN | user_id=u1 username=alice ip_address=1.2.3.4 country=US region= city= coordinates= os=Linux browser=Chrome device_type=desktop action=login status=success | session_id=s1 request_id=r1 trace_id=t1"

/-- The example line with the whole `city=` field dropped (a deviating line:
wrong field count). -/
def wrongCountLine : List Char :=
  strL "2024-03-01T10:00:00.000+00:00 | ACT-20240301T100000-1 | LOGIN | user_id=u1 username=alice ip_address=1.2.3.4 country=US region= coordinates= os=Linux browser=Chrome device_type=desktop | action=login status=success | session_id=s1 request_id=r1 trace_id=t1"

/-- The example line with the timestamp separator `T` corrupted to `X`
(a deviating line: malformed timestamp token). -/
def badTsLine : List Char :=
  strL "2024-03-01X10:00:00.000+00:00 | ACT-20240301T100000-1 | LOGIN | user_id=u1 username=alice ip_address=1.2.3.4 country=US region= city= coordinates= os=Linux browser=Chrome device_type=desktop | action=login status=success | session_id=s1 request_id=r1 trace_id=t1"

/-! ## Combinator lemmas -/

theorem obind_some (a : α) (f : α → Option β) : obind (some a) f = f a := rfl

theorem obind_eq_some {x : Option α} {f : α → Option β} {b : β} :
    obind x f = some b ↔ ∃ a, x = some a ∧ f a = some b := by
  cases x <;> simp [obind]

theorem lit_self (L r : List Char) : lit L (L ++ r) = some r := by
  induction L with
  | nil => rfl
  | cons c cs ih => simp [lit, ih]

theorem lit_single (c : Char) (r : List Char) : lit [c] (c :: r) = some r := by
  simp [lit]

theorem lit_sound {L s r : List Char} (h : lit L s = some r) : s = L ++ r := by
  induction L generalizing s with
  | nil =>
    simp [lit] at h
    simp [h]
  | cons c cs ih =>
    cases s with
    | nil => simp [lit] at h
    | cons d ds =>
      by_cases hdc : d = c
      · subst hdc
        simp [lit] at h
        simp [ih h]
      · simp [lit, hdc] at h

theorem lit_none_mono {L A : List Char} (h : lit L A = none) (hlen : L.length ≤ A.length)
    (y : List Char) : lit L (A ++ y) = none := by
  induction L generalizing A with
  | nil => simp [lit] at h
  | cons c cs ih =>
    cases A with
    | nil => simp at hlen
    | cons a as =>
      by_cases hac : a = c
      · subst hac
        simp [lit] at h ⊢
        exact ih h (by simpa using hlen)
      · simp [lit, hac]

theorem exactN_exact (p : Char → Bool) {v : List Char} {n : Nat} (hlen : v.length = n)
    (hall : v.all p = true) (r : List Char) : exactN p n (v ++ r) = some (v, r) := by
  induction v generalizing n with
  | nil => subst hlen; rfl
  | cons c v ih =>
    subst hlen
    simp only [List.all_cons, Bool.and_eq_true] at hall
    simp [exactN, hall.1, ih rfl hall.2]

theorem exactN_inv {p : Char → Bool} {n : Nat} {s : List Char} {q : List Char × List Char}
    (h : exactN p n s = some q) : q.1.length = n ∧ q.1.all p = true := by
  induction n generalizing s q with
  | zero =>
    simp [exactN] at h
    simp [← h]
  | succ n ih =>
    cases s with
    | nil => simp [exactN] at h
    | cons c s =>
      rcases hm : exactN p n s with _ | q2
      · simp [exactN, hm] at h
      · by_cases hc : p c
        · simp [exactN, hc, hm] at h
          have := ih hm
          simp [← h, this.1, this.2, hc]
        · simp [exactN, hc] at h

theorem munch_exact (p : Char → Bool) {v : List Char} (hall : v.all p = true)
    {r : List Char} (hr : headOk p r = true) : munch p (v ++ r) = (v, r) := by
  induction v with
  | nil =>
    cases r with
    | nil => rfl
    | cons c t =>
      simp [headOk] at hr
      simp [munch, hr]
  | cons c v ih =>
    simp only [List.all_cons, Bool.and_eq_true] at hall
    simp [munch, hall.1, ih hall.2]

theorem munch_all (p : Char → Bool) (s : List Char) : ((munch p s).1).all p = true := by
  induction s with
  | nil => rfl
  | cons c s ih =>
    by_cases hc : p c
    · simp [munch, hc, ih]
    · simp [munch, hc]

theorem munch1_exact (p : Char → Bool) {v : List Char} (hne : v ≠ []) (hall : v.all p = true)
    {r : List Char} (hr : headOk p r = true) : munch1 p (v ++ r) = some (v, r) := by
  unfold munch1
  rw [munch_exact p hall hr]
  cases v with
  | nil => exact absurd rfl hne
  | cons c v => rfl

theorem munch1_inv {p : Char → Bool} {s : List Char} {q : List Char × List Char}
    (h : munch1 p s = some q) : q.1 ≠ [] ∧ q.1.all p = true := by
  unfold munch1 at h
  rcases hm : munch p s with ⟨v, r⟩
  rw [hm] at h
  cases v with
  | nil => simp at h
  | cons c v =>
    have hq : q = (c :: v, r) := by
      cases h
      rfl
    have hall := munch_all p s
    rw [hm] at hall
    simp [hq, hall]

theorem headOk_append {p : Char → Bool} {l : List Char} (r : List Char) (hne : l ≠ [])
    (h : headOk p l = true) : headOk p (l ++ r) = true := by
  cases l with
  | nil => exact absurd rfl hne
  | cons c t => simpa [headOk] using h

theorem noEarlySep_spec {v sep : List Char} (h : noEarlySep v sep = true) {i : Nat}
    (hi : i < v.length) (y : List Char) : lit sep (List.drop i v ++ (sep ++ y)) = none := by
  have h1 : (lit sep (List.drop i (v ++ sep))).isNone = true :=
    List.all_eq_true.mp h i (List.mem_range.mpr hi)
  rw [List.drop_append_of_le_length (Nat.le_of_lt hi)] at h1
  have h3 : lit sep (List.drop i v ++ sep) = none := Option.isNone_iff_eq_none.mp h1
  have h4 : sep.length ≤ (List.drop i v ++ sep).length := by
    simp
  have h5 := lit_none_mono h3 h4 y
  rwa [List.append_assoc] at h5

/-! ## Forward lemmas for the deterministic pattern pieces -/

theorem matchSign_eq {sg : Char} (h : sg = '+' ∨ sg = '-') (r : List Char) :
    matchSign (sg :: r) = some (sg, r) := by
  rcases h with h | h <;> subst h <;> rfl

theorem matchTimestamp_shape
    {y mo dd hh mi ss frac oh om : List Char} {sg : Char}
    (hy : y.length = 4 ∧ y.all isDigitC = true)
    (hmo : mo.length = 2 ∧ mo.all isDigitC = true)
    (hdd : dd.length = 2 ∧ dd.all isDigitC = true)
    (hhh : hh.length = 2 ∧ hh.all isDigitC = true)
    (hmi : mi.length = 2 ∧ mi.all isDigitC = true)
    (hss : ss.length = 2 ∧ ss.all isDigitC = true)
    (hfrac : frac ≠ [] ∧ frac.all isDigitC = true)
    (hsg : sg = '+' ∨ sg = '-')
    (hoh : oh.length = 2 ∧ oh.all isDigitC = true)
    (hom : om.length = 2 ∧ om.all isDigitC = true)
    (t : List Char) :
    matchTimestamp (tsBlock y mo dd hh mi ss frac sg oh om t)
      = some (tsVal y mo dd hh mi ss frac sg oh om, t) := by
  have hsgd : headOk isDigitC (sg :: (oh ++ ':' :: (om ++ t))) = true := by
    rcases hsg with h | h <;> subst h <;> rfl
  simp only [tsBlock, matchTimestamp, tsVal, obind_some,
    exactN_exact isDigitC hy.1 hy.2, exactN_exact isDigitC hmo.1 hmo.2,
    exactN_exact isDigitC hdd.1 hdd.2, exactN_exact isDigitC hhh.1 hhh.2,
    exactN_exact isDigitC hmi.1 hmi.2, exactN_exact isDigitC hss.1 hss.2,
    exactN_exact isDigitC hoh.1 hoh.2, exactN_exact isDigitC hom.1 hom.2,
    lit_single, munch1_exact isDigitC hfrac.1 hfrac.2 hsgd, matchSign_eq hsg]

theorem matchLogId_shape {d8 d6 seq : List Char}
    (h8 : d8.length = 8 ∧ d8.all isDigitC = true)
    (h6 : d6.length = 6 ∧ d6.all isDigitC = true)
    (hq : seq ≠ [] ∧ seq.all isDigitC = true)
    {t : List Char} (ht : headOk isDigitC t = true) :
    matchLogId (lidBlock d8 d6 seq t) = some (lidVal d8 d6 seq, t) := by
  simp only [lidBlock, matchLogId, lidVal, obind_some, lit_self, lit_single,
    exactN_exact isDigitC h8.1 h8.2, exactN_exact isDigitC h6.1 h6.2,
    munch1_exact isDigitC hq.1 hq.2 ht]

/-! ## The non-greedy star -/

theorem lazyStar_nil (p : Char → Bool) (k : List Char → List Char → Option α) :
    lazyStar p k [] = match k [] [] with | some r => some r | none => none := rfl

theorem lazyStar_cons (p : Char → Bool) (k : List Char → List Char → Option α) (c : Char)
    (rest : List Char) :
    lazyStar p k (c :: rest) =
      match k [] (c :: rest) with
      | some r => some r
      | none => if p c then lazyStar p (fun v r2 => k (c :: v) r2) rest else none := rfl

theorem lazyStar_hit {p : Char → Bool} {k : List Char → List Char → Option α} {s : List Char}
    {out : α} (h : k [] s = some out) : lazyStar p k s = some out := by
  cases s with
  | nil => rw [lazyStar_nil, h]
  | cons c rest => rw [lazyStar_cons, h]

theorem lazyStar_step {p : Char → Bool} {k : List Char → List Char → Option α} {c : Char}
    {s : List Char} (h0 : k [] (c :: s) = none) (hc : p c = true) :
    lazyStar p k (c :: s) = lazyStar p (fun v r => k (c :: v) r) s := by
  rw [lazyStar_cons, h0]
  simp [hc]

theorem lazyStar_exact {p : Char → Bool} {v : List Char} :
    ∀ {k : List Char → List Char → Option α} {rest : List Char} {out : α},
    v.all p = true →
    (∀ i, i < v.length → k (List.take i v) (List.drop i v ++ rest) = none) →
    k v rest = some out →
    lazyStar p k (v ++ rest) = some out := by
  induction v with
  | nil =>
    intro k rest out _ _ hhit
    exact lazyStar_hit hhit
  | cons c v ih =>
    intro k rest out hall hmiss hhit
    simp only [List.all_cons, Bool.and_eq_true] at hall
    have h0 : k [] (c :: (v ++ rest)) = none := by
      have h := hmiss 0 (Nat.succ_pos _)
      simpa using h
    rw [List.cons_append, lazyStar_step h0 hall.1]
    refine ih hall.2 ?_ hhit
    intro i hi
    have h := hmiss (i + 1) (by simpa using hi)
    simpa [List.take_succ_cons, List.drop_succ_cons] using h

theorem lazyStar_some {p : Char → Bool} {s : List Char} :
    ∀ {k : List Char → List Char → Option α} {out : α},
    lazyStar p k s = some out → ∃ v r, v.all p = true ∧ k v r = some out := by
  induction s with
  | nil =>
    intro k out h
    rw [lazyStar_nil] at h
    rcases hk : k [] [] with _ | x
    · rw [hk] at h
      simp at h
    · rw [hk] at h
      simp at h
      exact ⟨[], [], rfl, by rw [hk, h]⟩
  | cons c s ih =>
    intro k out h
    rw [lazyStar_cons] at h
    rcases hk : k [] (c :: s) with _ | x
    · rw [hk] at h
      by_cases hc : p c
      · simp only [hc, if_true] at h
        obtain ⟨v, r, hall, hkv⟩ := ih h
        exact ⟨c :: v, r, by simp [hall, hc], hkv⟩
      · simp [hc] at h
    · rw [hk] at h
      simp at h
      exact ⟨[], c :: s, rfl, by rw [hk, h]⟩

theorem lazyField_eq {v sep rest : List Char} {next : List Char → List Char → Option RawGroups}
    {out : RawGroups}
    (hv : v.all notPipe = true) (hsep : noEarlySep v sep = true)
    (hnext : next v rest = some out) :
    lazyField sep next (v ++ (sep ++ rest)) = some out := by
  unfold lazyField
  refine lazyStar_exact hv ?_ ?_
  · intro i hi
    show obind (lit sep (List.drop i v ++ (sep ++ rest))) (next (List.take i v)) = none
    rw [noEarlySep_spec hsep hi rest]
    rfl
  · show obind (lit sep (sep ++ rest)) (next v) = some out
    rw [lit_self, obind_some, hnext]

theorem lazyField_inv {sep : List Char} {next : List Char → List Char → Option RawGroups}
    {s : List Char} {out : RawGroups} (h : lazyField sep next s = some out) :
    ∃ v r, v.all notPipe = true ∧ next v r = some out := by
  unfold lazyField at h
  obtain ⟨v, r, hall, hk⟩ := lazyStar_some h
  rcases hl : lit sep r with _ | r2
  · rw [hl] at hk
    simp [obind] at hk
  · rw [hl] at hk
    rw [obind_some] at hk
    exact ⟨v, r2, hall, hk⟩

/-! ## The round trip through a constructed grammatical line -/

theorem replace_empty_ne {v : List Char} (h : v ≠ []) : replace_empty_with_none v = some v := by
  simp [replace_empty_with_none, h]

theorem replace_eq_some {v w : List Char} (h : replace_empty_with_none v = some w) :
    w = v ∧ v ≠ [] := by
  unfold replace_empty_with_none at h
  by_cases hv : v = []
  · simp [hv] at h
  · simp [hv] at h
    exact ⟨h.symm, hv⟩

theorem tailStage_shape (g : RawGroups) {ac st se rq tr ext : List Char}
    (hac : ac.all notPipeSpace = true) (hst : st.all notPipeSpace = true)
    (hse : se.all notPipeSpace = true) (hrq : rq.all notPipeSpace = true)
    (htr : tr.all notPipeSpace = true) (hext : headOk notPipeSpace ext = true) :
    tailStage g (ac ++ (kStatus ++ (st ++ (kSession ++ (se ++ (kRequest ++
        (rq ++ (kTrace ++ (tr ++ ext))))))))) =
      some { g with action := ac, status := st, session_id := se,
                    request_id := rq, trace_id := tr } := by
  have hOkStatus : ∀ X : List Char, headOk notPipeSpace (kStatus ++ X) = true :=
    fun X => headOk_append X (by decide) (by decide)
  have hOkSession : ∀ X : List Char, headOk notPipeSpace (kSession ++ X) = true :=
    fun X => headOk_append X (by decide) (by decide)
  have hOkRequest : ∀ X : List Char, headOk notPipeSpace (kRequest ++ X) = true :=
    fun X => headOk_append X (by decide) (by decide)
  have hOkTrace : ∀ X : List Char, headOk notPipeSpace (kTrace ++ X) = true :=
    fun X => headOk_append X (by decide) (by decide)
  simp only [tailStage, obind_some, lit_self, munch_exact notPipeSpace,
    hac, hst, hse, hrq, htr, hOkStatus, hOkSession, hOkRequest, hOkTrace, hext]

theorem regexMatch_mkLine
    {y mo dd hh mi ss frac oh om : List Char} {sg : Char}
    {d8 d6 seq ev uid un ip co rg ci cd osv br dv ac st se rq tr ext : List Char}
    (hy : y.length = 4 ∧ y.all isDigitC = true)
    (hmo : mo.length = 2 ∧ mo.all isDigitC = true)
    (hdd : dd.length = 2 ∧ dd.all isDigitC = true)
    (hhh : hh.length = 2 ∧ hh.all isDigitC = true)
    (hmi : mi.length = 2 ∧ mi.all isDigitC = true)
    (hss : ss.length = 2 ∧ ss.all isDigitC = true)
    (hfrac : frac ≠ [] ∧ frac.all isDigitC = true)
    (hsg : sg = '+' ∨ sg = '-')
    (hoh : oh.length = 2 ∧ oh.all isDigitC = true)
    (hom : om.length = 2 ∧ om.all isDigitC = true)
    (h8 : d8.length = 8 ∧ d8.all isDigitC = true)
    (h6 : d6.length = 6 ∧ d6.all isDigitC = true)
    (hseq : seq ≠ [] ∧ seq.all isDigitC = true)
    (hev : ev ≠ [] ∧ ev.all isEventC = true)
    (huid : uid ≠ [] ∧ uid.all notSpace = true)
    (hun : un.all notPipe = true ∧ noEarlySep un kIp = true)
    (hip : ip ≠ [] ∧ ip.all notSpace = true)
    (hco : co.all notPipe = true ∧ noEarlySep co kRegion = true)
    (hrg : rg.all notPipe = true ∧ noEarlySep rg kCity = true)
    (hci : ci.all notPipe = true ∧ noEarlySep ci kCoordinates = true)
    (hcd : cd.all notPipe = true ∧ noEarlySep cd kOs = true)
    (hosv : osv.all notPipe = true ∧ noEarlySep osv kBrowser = true)
    (hbr : br.all notPipe = true ∧ noEarlySep br kDevice = true)
    (hdv : dv.all notPipe = true ∧ noEarlySep dv kActionSep = true)
    (hac : ac.all notPipeSpace = true) (hst : st.all notPipeSpace = true)
    (hse : se.all notPipeSpace = true) (hrq : rq.all notPipeSpace = true)
    (htr : tr.all notPipeSpace = true)
    (hext : headOk notPipeSpace ext = true) :
    regexMatch (mkLine y mo dd hh mi ss frac sg oh om d8 d6 seq ev uid un ip co rg ci
        cd osv br dv ac st se rq tr ext) =
      some ⟨tsVal y mo dd hh mi ss frac sg oh om, lidVal d8 d6 seq, ev, uid, un, ip,
            co, rg, ci, cd, osv, br, dv, ac, st, se, rq, tr⟩ := by
  have hOkBarDigit : ∀ X : List Char, headOk isDigitC (barSep ++ X) = true :=
    fun X => headOk_append X (by decide) (by decide)
  have hOkUserId : ∀ X : List Char, headOk isEventC (kUserId ++ X) = true :=
    fun X => headOk_append X (by decide) (by decide)
  have hOkUsername : ∀ X : List Char, headOk notSpace (kUsername ++ X) = true :=
    fun X => headOk_append X (by decide) (by decide)
  have hOkCountry : ∀ X : List Char, headOk notSpace (kCountry ++ X) = true :=
    fun X => headOk_append X (by decide) (by decide)
  simp only [mkLine, regexMatch, obind_some, lit_self,
    matchTimestamp_shape hy hmo hdd hhh hmi hss hfrac hsg hoh hom,
    matchLogId_shape h8 h6 hseq, hOkBarDigit,
    munch1_exact isEventC hev.1 hev.2, hOkUserId,
    munch1_exact notSpace huid.1 huid.2, hOkUsername]
  refine lazyField_eq hun.1 hun.2 ?_
  simp only [obind_some, lit_self,
    munch1_exact notSpace hip.1 hip.2, hOkCountry]
  refine lazyField_eq hco.1 hco.2 ?_
  refine lazyField_eq hrg.1 hrg.2 ?_
  refine lazyField_eq hci.1 hci.2 ?_
  refine lazyField_eq hcd.1 hcd.2 ?_
  refine lazyField_eq hosv.1 hosv.2 ?_
  refine lazyField_eq hbr.1 hbr.2 ?_
  refine lazyField_eq hdv.1 hdv.2 ?_
  exact tailStage_shape _ hac hst hse hrq htr hext

theorem parse_log_mkLine
    {y mo dd hh mi ss frac oh om : List Char} {sg : Char}
    {d8 d6 seq ev uid un ip co rg ci cd osv br dv ac st se rq tr ext : List Char}
    (hy : y.length = 4 ∧ y.all isDigitC = true)
    (hmo : mo.length = 2 ∧ mo.all isDigitC = true)
    (hdd : dd.length = 2 ∧ dd.all isDigitC = true)
    (hhh : hh.length = 2 ∧ hh.all isDigitC = true)
    (hmi : mi.length = 2 ∧ mi.all isDigitC = true)
    (hss : ss.length = 2 ∧ ss.all isDigitC = true)
    (hfrac : frac ≠ [] ∧ frac.all isDigitC = true)
    (hsg : sg = '+' ∨ sg = '-')
    (hoh : oh.length = 2 ∧ oh.all isDigitC = true)
    (hom : om.length = 2 ∧ om.all isDigitC = true)
    (h8 : d8.length = 8 ∧ d8.all isDigitC = true)
    (h6 : d6.length = 6 ∧ d6.all isDigitC = true)
    (hseq : seq ≠ [] ∧ seq.all isDigitC = true)
    (hev : ev ≠ [] ∧ ev.all isEventC = true)
    (huid : uid ≠ [] ∧ uid.all notSpace = true)
    (hun : un.all notPipe = true ∧ noEarlySep un kIp = true)
    (hip : ip ≠ [] ∧ ip.all notSpace = true)
    (hco : co.all notPipe = true ∧ noEarlySep co kRegion = true)
    (hrg : rg.all notPipe = true ∧ noEarlySep rg kCity = true)
    (hci : ci.all notPipe = true ∧ noEarlySep ci kCoordinates = true)
    (hcd : cd.all notPipe = true ∧ noEarlySep cd kOs = true)
    (hosv : osv.all notPipe = true ∧ noEarlySep osv kBrowser = true)
    (hbr : br.all notPipe = true ∧ noEarlySep br kDevice = true)
    (hdv : dv.all notPipe = true ∧ noEarlySep dv kActionSep = true)
    (hac : ac.all notPipeSpace = true) (hst : st.all notPipeSpace = true)
    (hse : se.all notPipeSpace = true) (hrq : rq.all notPipeSpace = true)
    (htr : tr.all notPipeSpace = true)
    (hext : headOk notPipeSpace ext = true) :
    parse_log (mkLine y mo dd hh mi ss frac sg oh om d8 d6 seq ev uid un ip co rg ci
        cd osv br dv ac st se rq tr ext) =
      some ⟨tsVal y mo dd hh mi ss frac sg oh om, lidVal d8 d6 seq, ev,
            some uid, replace_empty_with_none un, some ip,
            replace_empty_with_none co, replace_empty_with_none rg,
            replace_empty_with_none ci, replace_empty_with_none cd,
            replace_empty_with_none osv, replace_empty_with_none br,
            replace_empty_with_none dv, replace_empty_with_none ac,
            replace_empty_with_none st, replace_empty_with_none se,
            replace_empty_with_none rq, replace_empty_with_none tr⟩ := by
  simp only [parse_log,
    regexMatch_mkLine hy hmo hdd hhh hmi hss hfrac hsg hoh hom h8 h6 hseq hev huid hun
      hip hco hrg hci hcd hosv hbr hdv hac hst hse hrq htr hext,
    toRecord, replace_empty_ne huid.1, replace_empty_ne hip.1]

/-! ## Inversion of a successful match -/

theorem matchTimestamp_inv {s : List Char} {q : List Char × List Char}
    (h : matchTimestamp s = some q) : q.1 ≠ [] := by
  unfold matchTimestamp at h
  simp only [obind_eq_some] at h
  obtain ⟨a, ha, s1, hs1, b, hb, s2, hs2, c, hc, s3, hs3, d, hd, s4, hs4, e, he,
          s5, hs5, f, hf, s6, hs6, g, hg, h2, hh2, i, hi2, s7, hs7, j, hj, hfin⟩ := h
  cases hfin
  simp

theorem matchLogId_inv {s : List Char} {q : List Char × List Char}
    (h : matchLogId s = some q) : q.1 ≠ [] := by
  unfold matchLogId at h
  simp only [obind_eq_some] at h
  obtain ⟨s1, hs1, a, ha, s2, hs2, b, hb, s3, hs3, c, hc, hfin⟩ := h
  cases hfin
  simp

theorem tailStage_inv {g : RawGroups} {s : List Char} {out : RawGroups}
    (h : tailStage g s = some out) :
    out.timestamp = g.timestamp ∧ out.log_id = g.log_id ∧ out.event_type = g.event_type ∧
    out.user_id = g.user_id ∧ out.username = g.username ∧ out.ip_address = g.ip_address ∧
    out.action.all notPipeSpace = true ∧ out.status.all notPipeSpace = true ∧
    out.session_id.all notPipeSpace = true ∧ out.request_id.all notPipeSpace = true ∧
    out.trace_id.all notPipeSpace = true := by
  unfold tailStage at h
  simp only [obind_eq_some] at h
  obtain ⟨t1, ht1, t2, ht2, t3, ht3, t4, ht4, hfin⟩ := h
  cases hfin
  simp [munch_all]

theorem regexMatch_inv {s : List Char} {g : RawGroups} (h : regexMatch s = some g) :
    g.timestamp ≠ [] ∧ g.log_id ≠ [] ∧ g.event_type ≠ [] ∧
    g.user_id ≠ [] ∧ g.user_id.all notSpace = true ∧
    g.ip_address ≠ [] ∧ g.ip_address.all notSpace = true ∧
    g.action.all notPipeSpace = true ∧ g.status.all notPipeSpace = true ∧
    g.session_id.all notPipeSpace = true ∧ g.request_id.all notPipeSpace = true ∧
    g.trace_id.all notPipeSpace = true := by
  unfold regexMatch at h
  simp only [obind_eq_some] at h
  obtain ⟨a, ha, s1, hs1, b, hb, s2, hs2, c, hc, s3, hs3, d, hd, s4, hs4, hlf⟩ := h
  obtain ⟨un, r1, hun, hk⟩ := lazyField_inv hlf
  simp only [obind_eq_some] at hk
  obtain ⟨e, he, s6, hs6, hlf2⟩ := hk
  obtain ⟨co, r2, hco, hk2⟩ := lazyField_inv hlf2
  obtain ⟨rg, r3, hrg, hk3⟩ := lazyField_inv hk2
  obtain ⟨ci, r4, hci, hk4⟩ := lazyField_inv hk3
  obtain ⟨cd, r5, hcd, hk5⟩ := lazyField_inv hk4
  obtain ⟨osv, r6, hosv, hk6⟩ := lazyField_inv hk5
  obtain ⟨br, r7, hbr, hk7⟩ := lazyField_inv hk6
  obtain ⟨dv, r8, hdv, hk8⟩ := lazyField_inv hk7
  have ht := tailStage_inv hk8
  obtain ⟨e1, e2, e3, e4, e5, e6, e7, e8, e9, e10, e11⟩ := ht
  simp only at e1 e2 e3 e4 e5 e6
  have hts := matchTimestamp_inv ha
  have hlid := matchLogId_inv hb
  have hevq := munch1_inv hc
  have huidq := munch1_inv hd
  have hipq := munch1_inv he
  exact ⟨by rw [e1]; exact hts, by rw [e2]; exact hlid, by rw [e3]; exact hevq.1,
         by rw [e4]; exact huidq.1, by rw [e4]; exact huidq.2,
         by rw [e6]; exact hipq.1, by rw [e6]; exact hipq.2,
         e7, e8, e9, e10, e11⟩

/-! ## The ingestion loop -/

theorem runLoop_closed (s : List PollEvent) :
    (runLoop s).consumerClosed = true ∧ (runLoop s).connClosed = true := by
  induction s with
  | nil => exact ⟨rfl, rfl⟩
  | cons e rest ih =>
    cases e with
    | noMessage => simpa [runLoop] using ih
    | kafkaError code =>
      by_cases hc : code = PARTITION_EOF
      · simpa [runLoop, hc] using ih
      · simp [runLoop, hc]
    | message payload ok =>
      rcases hp : parse_log payload with _ | lr
      · simpa [runLoop, hp] using ih
      · cases ok
        · simp [runLoop, hp]
        · simpa [runLoop, hp] using ih

theorem runLoop_append {pre : List PollEvent} (s : List PollEvent)
    (hp : (runLoop pre).cause = StopCause.exhausted) :
    runLoop (pre ++ s) =
      ⟨(runLoop pre).inserted ++ (runLoop s).inserted,
       (runLoop pre).invalid ++ (runLoop s).invalid,
       (runLoop s).cause, (runLoop s).leftover, true, true⟩ := by
  induction pre with
  | nil =>
    have hc := runLoop_closed s
    rcases hr : runLoop s with ⟨i, iv, c, l, cc, oc⟩
    rw [hr] at hc
    simp only at hc
    simp [runLoop, hr, hc.1, hc.2]
  | cons e pre ih =>
    cases e with
    | noMessage =>
      rw [runLoop] at hp
      simpa [runLoop] using ih hp
    | kafkaError code =>
      by_cases hcode : code = PARTITION_EOF
      · rw [runLoop] at hp
        rw [if_pos hcode] at hp
        simpa [runLoop, hcode] using ih hp
      · rw [runLoop] at hp
        rw [if_neg hcode] at hp
        simp at hp
    | message payload ok =>
      rcases hpl : parse_log payload with _ | lr
      · rw [runLoop, hpl] at hp
        simp only at hp
        have := ih hp
        simp [runLoop, hpl, this]
      · cases ok
        · rw [runLoop, hpl] at hp
          simp at hp
        · rw [runLoop, hpl] at hp
          simp only at hp
          have := ih hp
          simp [runLoop, hpl, this]

/-! ## Claims -/

/-- Claim C1: every line matching the grammar of spec section 4.1 parses to a
record whose fields are the injected values verbatim, in order, with no
transformation beyond collapsing an empty capture to absent; in particular a
fully populated line parses with all eighteen values verbatim, and the example
line of section 8 (instantiated in the witness) parses with `region`, `city`
and `coordinates` absent and every other field exactly as written. -/
theorem c1_parse_grammatical_verbatim
    {y mo dd hh mi ss frac oh om : List Char} {sg : Char}
    {d8 d6 seq ev uid un ip co rg ci cd osv br dv ac st se rq tr : List Char}
    (hy : y.length = 4 ∧ y.all isDigitC = true)
    (hmo : mo.length = 2 ∧ mo.all isDigitC = true)
    (hdd : dd.length = 2 ∧ dd.all isDigitC = true)
    (hhh : hh.length = 2 ∧ hh.all isDigitC = true)
    (hmi : mi.length = 2 ∧ mi.all isDigitC = true)
    (hss : ss.length = 2 ∧ ss.all isDigitC = true)
    (hfrac : frac ≠ [] ∧ frac.all isDigitC = true)
    (hsg : sg = '+' ∨ sg = '-')
    (hoh : oh.length = 2 ∧ oh.all isDigitC = true)
    (hom : om.length = 2 ∧ om.all isDigitC = true)
    (h8 : d8.length = 8 ∧ d8.all isDigitC = true)
    (h6 : d6.length = 6 ∧ d6.all isDigitC = true)
    (hseq : seq ≠ [] ∧ seq.all isDigitC = true)
    (hev : ev ≠ [] ∧ ev.all isEventC = true)
    (huid : uid ≠ [] ∧ uid.all notSpace = true)
    (hun : un.all notPipe = true ∧ noEarlySep un kIp = true)
    (hip : ip ≠ [] ∧ ip.all notSpace = true)
    (hco : co.all notPipe = true ∧ noEarlySep co kRegion = true)
    (hrg : rg.all notPipe = true ∧ noEarlySep rg kCity = true)
    (hci : ci.all notPipe = true ∧ noEarlySep ci kCoordinates = true)
    (hcd : cd.all notPipe = true ∧ noEarlySep cd kOs = true)
    (hosv : osv.all notPipe = true ∧ noEarlySep osv kBrowser = true)
    (hbr : br.all notPipe = true ∧ noEarlySep br kDevice = true)
    (hdv : dv.all notPipe = true ∧ noEarlySep dv kActionSep = true)
    (hac : ac.all notPipeSpace = true) (hst : st.all notPipeSpace = true)
    (hse : se.all notPipeSpace = true) (hrq : rq.all notPipeSpace = true)
    (htr : tr.all notPipeSpace = true) :
    parse_log (mkLine y mo dd hh mi ss frac sg oh om d8 d6 seq ev uid un ip co rg ci
        cd osv br dv ac st se rq tr []) =
      some ⟨tsVal y mo dd hh mi ss frac sg oh om, lidVal d8 d6 seq, ev,
            some uid, replace_empty_with_none un, some ip,
            replace_empty_with_none co, replace_empty_with_none rg,
            replace_empty_with_none ci, replace_empty_with_none cd,
            replace_empty_with_none osv, replace_empty_with_none br,
            replace_empty_with_none dv, replace_empty_with_none ac,
            replace_empty_with_none st, replace_empty_with_none se,
            replace_empty_with_none rq, replace_empty_with_none tr⟩ :=
  parse_log_mkLine hy hmo hdd hhh hmi hss hfrac hsg hoh hom h8 h6 hseq hev huid hun
    hip hco hrg hci hcd hosv hbr hdv hac hst hse hrq htr rfl

/-- Witness for C1: the example line of spec section 8 parses to the example
record, with `region`, `city`, `coordinates` absent and all other fields
verbatim. -/
theorem c1_example_line : parse_log exLine = some exRecord := by
  have h : parse_log (mkLine (strL "2024") (strL "03") (strL "01") (strL "10")
      (strL "00") (strL "00") (strL "000") '+' (strL "00") (strL "00")
      (strL "20240301") (strL "100000") (strL "1") (strL "LOGIN") (strL "u1")
      (strL "alice") (strL "1.2.3.4") (strL "US") [] [] [] (strL "Linux")
      (strL "Chrome") (strL "desktop") (strL "login") (strL "success") (strL "s1")
      (strL "r1") (strL "t1") []) =
      some ⟨tsVal (strL "2024") (strL "03") (strL "01") (strL "10") (strL "00")
              (strL "00") (strL "000") '+' (strL "00") (strL "00"),
            lidVal (strL "20240301") (strL "100000") (strL "1"), strL "LOGIN",
            some (strL "u1"), replace_empty_with_none (strL "alice"),
            some (strL "1.2.3.4"), replace_empty_with_none (strL "US"),
            replace_empty_with_none [], replace_empty_with_none [],
            replace_empty_with_none [], replace_empty_with_none (strL "Linux"),
            replace_empty_with_none (strL "Chrome"),
            replace_empty_with_none (strL "desktop"),
            replace_empty_with_none (strL "login"),
            replace_empty_with_none (strL "success"),
            replace_empty_with_none (strL "s1"), replace_empty_with_none (strL "r1"),
            replace_empty_with_none (strL "t1")⟩ :=
    c1_parse_grammatical_verbatim (by decide) (by decide) (by decide) (by decide)
      (by decide) (by decide) (by decide) (by decide) (by decide) (by decide)
      (by decide) (by decide) (by decide) (by decide) (by decide) (by decide)
      (by decide) (by decide) (by decide) (by decide) (by decide) (by decide)
      (by decide) (by decide) (by decide) (by decide) (by decide) (by decide)
      (by decide)
  have e1 : mkLine (strL "2024") (strL "03") (strL "01") (strL "10") (strL "00")
      (strL "00") (strL "000") '+' (strL "00") (strL "00") (strL "20240301")
      (strL "100000") (strL "1") (strL "LOGIN") (strL "u1") (strL "alice")
      (strL "1.2.3.4") (strL "US") [] [] [] (strL "Linux") (strL "Chrome")
      (strL "desktop") (strL "login") (strL "success") (strL "s1") (strL "r1")
      (strL "t1") [] = exLine := by decide
  rw [e1] at h
  rw [h]
  decide

/-- Counterexample for C2: supplying `user_id` as the empty string in the
otherwise well-formed example line yields a parse failure, not a successful
parse with the field absent -- the pattern `[^\s]+` requires at least one
character. -/
theorem c2_empty_user_id_fails : parse_log emptyUserIdLine = none := by decide

/-- Claim C2 (amended): for every optional field other than `user_id` --
`username`, `country`, `region`, `city`, `coordinates`, `os`, `browser`,
`device_type`, `action`, `status`, `session_id`, `request_id`, `trace_id` --
supplying that field as the empty string in an otherwise well-formed line
yields a successful parse in which that field is absent; an empty `user_id`
is instead a parse failure (see the counterexample). -/
theorem c2_optional_empty_absent
    {y mo dd hh mi ss frac oh om : List Char} {sg : Char}
    {d8 d6 seq ev uid un ip co rg ci cd osv br dv ac st se rq tr : List Char}
    (hy : y.length = 4 ∧ y.all isDigitC = true)
    (hmo : mo.length = 2 ∧ mo.all isDigitC = true)
    (hdd : dd.length = 2 ∧ dd.all isDigitC = true)
    (hhh : hh.length = 2 ∧ hh.all isDigitC = true)
    (hmi : mi.length = 2 ∧ mi.all isDigitC = true)
    (hss : ss.length = 2 ∧ ss.all isDigitC = true)
    (hfrac : frac ≠ [] ∧ frac.all isDigitC = true)
    (hsg : sg = '+' ∨ sg = '-')
    (hoh : oh.length = 2 ∧ oh.all isDigitC = true)
    (hom : om.length = 2 ∧ om.all isDigitC = true)
    (h8 : d8.length = 8 ∧ d8.all isDigitC = true)
    (h6 : d6.length = 6 ∧ d6.all isDigitC = true)
    (hseq : seq ≠ [] ∧ seq.all isDigitC = true)
    (hev : ev ≠ [] ∧ ev.all isEventC = true)
    (huid : uid ≠ [] ∧ uid.all notSpace = true)
    (hun : un.all notPipe = true ∧ noEarlySep un kIp = true)
    (hip : ip ≠ [] ∧ ip.all notSpace = true)
    (hco : co.all notPipe = true ∧ noEarlySep co kRegion = true)
    (hrg : rg.all notPipe = true ∧ noEarlySep rg kCity = true)
    (hci : ci.all notPipe = true ∧ noEarlySep ci kCoordinates = true)
    (hcd : cd.all notPipe = true ∧ noEarlySep cd kOs = true)
    (hosv : osv.all notPipe = true ∧ noEarlySep osv kBrowser = true)
    (hbr : br.all notPipe = true ∧ noEarlySep br kDevice = true)
    (hdv : dv.all notPipe = true ∧ noEarlySep dv kActionSep = true)
    (hac : ac.all notPipeSpace = true) (hst : st.all notPipeSpace = true)
    (hse : se.all notPipeSpace = true) (hrq : rq.all notPipeSpace = true)
    (htr : tr.all notPipeSpace = true) :
    ∃ r, parse_log (mkLine y mo dd hh mi ss frac sg oh om d8 d6 seq ev uid un ip co
        rg ci cd osv br dv ac st se rq tr []) = some r ∧
      (un = [] → r.username = none) ∧ (co = [] → r.country = none) ∧
      (rg = [] → r.region = none) ∧ (ci = [] → r.city = none) ∧
      (cd = [] → r.coordinates = none) ∧ (osv = [] → r.os = none) ∧
      (br = [] → r.browser = none) ∧ (dv = [] → r.device_type = none) ∧
      (ac = [] → r.action = none) ∧ (st = [] → r.status = none) ∧
      (se = [] → r.session_id = none) ∧ (rq = [] → r.request_id = none) ∧
      (tr = [] → r.trace_id = none) := by
  refine ⟨_, parse_log_mkLine hy hmo hdd hhh hmi hss hfrac hsg hoh hom h8 h6 hseq hev
    huid hun hip hco hrg hci hcd hosv hbr hdv hac hst hse hrq htr rfl,
    ?_, ?_, ?_, ?_, ?_, ?_, ?_, ?_, ?_, ?_, ?_, ?_, ?_⟩ <;>
  · intro hemp
    simp [hemp, replace_empty_with_none]

/-- Witness for C2: a line with every optional field empty parses, and the
record has `username`, `country`, `region`, `city`, `coordinates`, `os`,
`browser`, `device_type`, `action`, `status`, `session_id`, `request_id` and
`trace_id` all absent. -/
theorem c2_all_optional_empty :
    (parse_log (mkLine (strL "2024") (strL "03") (strL "01") (strL "10") (strL "00")
        (strL "00") (strL "000") '+' (strL "00") (strL "00") (strL "20240301")
        (strL "100000") (strL "1") (strL "LOGIN") (strL "u1") [] (strL "1.2.3.4")
        [] [] [] [] [] [] [] [] [] [] [] [] [])).map LogRecord.username = some none ∧
    (parse_log (mkLine (strL "2024") (strL "03") (strL "01") (strL "10") (strL "00")
        (strL "00") (strL "000") '+' (strL "00") (strL "00") (strL "20240301")
        (strL "100000") (strL "1") (strL "LOGIN") (strL "u1") [] (strL "1.2.3.4")
        [] [] [] [] [] [] [] [] [] [] [] [] [])).map LogRecord.trace_id = some none := by
  obtain ⟨r, hr, h1, h2, h3, h4, h5, h6, h7, h8, h9, h10, h11, h12, h13⟩ :=
    @c2_optional_empty_absent (strL "2024") (strL "03") (strL "01") (strL "10")
      (strL "00") (strL "00") (strL "000") (strL "00") (strL "00") '+'
      (strL "20240301") (strL "100000") (strL "1") (strL "LOGIN") (strL "u1") []
      (strL "1.2.3.4") [] [] [] [] [] [] [] [] [] [] [] []
      (by decide) (by decide) (by decide) (by decide)
      (by decide) (by decide) (by decide) (by decide) (by decide) (by decide)
      (by decide) (by decide) (by decide) (by decide) (by decide) (by decide)
      (by decide) (by decide) (by decide) (by decide) (by decide) (by decide)
      (by decide) (by decide) (by decide) (by decide) (by decide) (by decide)
      (by decide)
  rw [hr]
  simp [h1 rfl, h13 rfl]

/-- Counterexample for C3: the grammatical example line of spec section 8
followed by extra trailing characters still parses successfully, to the record
of the grammatical prefix -- `re.match` anchors at position 0 but not at the
end of the line. -/
theorem c3_trailing_junk_accepted :
    parse_log (exLine ++ strL " trailing junk!") = some exRecord := by decide

/-- Claim C3 (amended): parse is anchored at position 0 only.  A deviation
inside the matched region is a failure, but a grammatical line followed by
extra trailing characters (here: a space and then anything) parses
successfully, returning the record of the grammatical prefix, never a
failure. -/
theorem c3_anchored_start_only
    {y mo dd hh mi ss frac oh om : List Char} {sg : Char}
    {d8 d6 seq ev uid un ip co rg ci cd osv br dv ac st se rq tr : List Char}
    (hy : y.length = 4 ∧ y.all isDigitC = true)
    (hmo : mo.length = 2 ∧ mo.all isDigitC = true)
    (hdd : dd.length = 2 ∧ dd.all isDigitC = true)
    (hhh : hh.length = 2 ∧ hh.all isDigitC = true)
    (hmi : mi.length = 2 ∧ mi.all isDigitC = true)
    (hss : ss.length = 2 ∧ ss.all isDigitC = true)
    (hfrac : frac ≠ [] ∧ frac.all isDigitC = true)
    (hsg : sg = '+' ∨ sg = '-')
    (hoh : oh.length = 2 ∧ oh.all isDigitC = true)
    (hom : om.length = 2 ∧ om.all isDigitC = true)
    (h8 : d8.length = 8 ∧ d8.all isDigitC = true)
    (h6 : d6.length = 6 ∧ d6.all isDigitC = true)
    (hseq : seq ≠ [] ∧ seq.all isDigitC = true)
    (hev : ev ≠ [] ∧ ev.all isEventC = true)
    (huid : uid ≠ [] ∧ uid.all notSpace = true)
    (hun : un.all notPipe = true ∧ noEarlySep un kIp = true)
    (hip : ip ≠ [] ∧ ip.all notSpace = true)
    (hco : co.all notPipe = true ∧ noEarlySep co kRegion = true)
    (hrg : rg.all notPipe = true ∧ noEarlySep rg kCity = true)
    (hci : ci.all notPipe = true ∧ noEarlySep ci kCoordinates = true)
    (hcd : cd.all notPipe = true ∧ noEarlySep cd kOs = true)
    (hosv : osv.all notPipe = true ∧ noEarlySep osv kBrowser = true)
    (hbr : br.all notPipe = true ∧ noEarlySep br kDevice = true)
    (hdv : dv.all notPipe = true ∧ noEarlySep dv kActionSep = true)
    (hac : ac.all notPipeSpace = true) (hst : st.all notPipeSpace = true)
    (hse : se.all notPipeSpace = true) (hrq : rq.all notPipeSpace = true)
    (htr : tr.all notPipeSpace = true) (junk : List Char) :
    parse_log (mkLine y mo dd hh mi ss frac sg oh om d8 d6 seq ev uid un ip co rg ci
        cd osv br dv ac st se rq tr (' ' :: junk)) =
      some ⟨tsVal y mo dd hh mi ss frac sg oh om, lidVal d8 d6 seq, ev,
            some uid, replace_empty_with_none un, some ip,
            replace_empty_with_none co, replace_empty_with_none rg,
            replace_empty_with_none ci, replace_empty_with_none cd,
            replace_empty_with_none osv, replace_empty_with_none br,
            replace_empty_with_none dv, replace_empty_with_none ac,
            replace_empty_with_none st, replace_empty_with_none se,
            replace_empty_with_none rq, replace_empty_with_none tr⟩ :=
  parse_log_mkLine hy hmo hdd hhh hmi hss hfrac hsg hoh hom h8 h6 hseq hev huid hun
    hip hco hrg hci hcd hosv hbr hdv hac hst hse hrq htr rfl

/-- Witness for C3: the example-line field values followed by the trailing
text ` extra` parse successfully, with `trace_id` still exactly `t1`. -/
theorem c3_trailing_example :
    parse_log (mkLine (strL "2024") (strL "03") (strL "01") (strL "10") (strL "00")
        (strL "00") (strL "000") '+' (strL "00") (strL "00") (strL "20240301")
        (strL "100000") (strL "1") (strL "LOGIN") (strL "u1") (strL "alice")
        (strL "1.2.3.4") (strL "US") [] [] [] (strL "Linux") (strL "Chrome")
        (strL "desktop") (strL "login") (strL "success") (strL "s1") (strL "r1")
        (strL "t1") (' ' :: strL "extra")) =
      some ⟨tsVal (strL "2024") (strL "03") (strL "01") (strL "10") (strL "00")
              (strL "00") (strL "000") '+' (strL "00") (strL "00"),
            lidVal (strL "20240301") (strL "100000") (strL "1"), strL "LOGIN",
            some (strL "u1"), replace_empty_with_none (strL "alice"),
            some (strL "1.2.3.4"), replace_empty_with_none (strL "US"),
            replace_empty_with_none [], replace_empty_with_none [],
            replace_empty_with_none [], replace_empty_with_none (strL "Linux"),
            replace_empty_with_none (strL "Chrome"),
            replace_empty_with_none (strL "desktop"),
            replace_empty_with_none (strL "login"),
            replace_empty_with_none (strL "success"),
            replace_empty_with_none (strL "s1"), replace_empty_with_none (strL "r1"),
            replace_empty_with_none (strL "t1")⟩ :=
  c3_anchored_start_only (by decide) (by decide) (by decide) (by decide) (by decide)
    (by decide) (by decide) (by decide) (by decide) (by decide) (by decide)
    (by decide) (by decide) (by decide) (by decide) (by decide) (by decide)
    (by decide) (by decide) (by decide) (by decide) (by decide) (by decide)
    (by decide) (by decide) (by decide) (by decide) (by decide) (by decide)
    (strL "extra")

/-- Counterexample for C4: a line whose `user_id` value is `u|1` -- containing
the pipe character -- matches the grammar and parses successfully with that
value captured verbatim: the `user_id` class `[^\s]+` excludes whitespace but
not the pipe. -/
theorem c4_pipe_in_user_id_accepted :
    parse_log pipeUserIdLine = some pipeUserIdRecord := by decide

/-- Claim C4 (amended): on every successful parse the `user_id` and
`ip_address` captures are non-empty and contain no whitespace, and the
`action`, `status`, `session_id`, `request_id` and `trace_id` captures contain
neither whitespace nor the pipe character; so a value containing such a
character is never captured verbatim for these fields.  (`user_id` and
`ip_address` may contain the pipe character itself, refuting the claim as
stated -- see the counterexample.) -/
theorem c4_capture_classes {s : List Char} {r : LogRecord}
    (h : parse_log s = some r) :
    (∀ v, r.user_id = some v → v ≠ [] ∧ v.all notSpace = true) ∧
    (∀ v, r.ip_address = some v → v ≠ [] ∧ v.all notSpace = true) ∧
    (∀ v, r.action = some v → v.all notPipeSpace = true) ∧
    (∀ v, r.status = some v → v.all notPipeSpace = true) ∧
    (∀ v, r.session_id = some v → v.all notPipeSpace = true) ∧
    (∀ v, r.request_id = some v → v.all notPipeSpace = true) ∧
    (∀ v, r.trace_id = some v → v.all notPipeSpace = true) := by
  unfold parse_log at h
  rcases hm : regexMatch s with _ | g
  · rw [hm] at h
    exact absurd h (by simp)
  · rw [hm] at h
    have hr : r = toRecord g := by
      cases h
      rfl
    subst hr
    obtain ⟨_, _, _, h4, h5, h6, h7, h8, h9, h10, h11, h12⟩ := regexMatch_inv hm
    refine ⟨?_, ?_, ?_, ?_, ?_, ?_, ?_⟩ <;> intro v hv
    · obtain ⟨he, _⟩ := replace_eq_some hv
      exact ⟨by rw [he]; exact h4, by rw [he]; exact h5⟩
    · obtain ⟨he, _⟩ := replace_eq_some hv
      exact ⟨by rw [he]; exact h6, by rw [he]; exact h7⟩
    · obtain ⟨he, _⟩ := replace_eq_some hv
      rw [he]
      exact h8
    · obtain ⟨he, _⟩ := replace_eq_some hv
      rw [he]
      exact h9
    · obtain ⟨he, _⟩ := replace_eq_some hv
      rw [he]
      exact h10
    · obtain ⟨he, _⟩ := replace_eq_some hv
      rw [he]
      exact h11
    · obtain ⟨he, _⟩ := replace_eq_some hv
      rw [he]
      exact h12

/-- Witness for C4: applied to the example line, the captured `user_id` value
`u1` is non-empty and whitespace-free, and the captured `action` value `login`
is whitespace- and pipe-free. -/
theorem c4_capture_classes_example :
    ((strL "u1") ≠ [] ∧ (strL "u1").all notSpace = true) ∧
      (strL "login").all notPipeSpace = true := by
  have h := c4_capture_classes (show parse_log exLine = some exRecord by decide)
  exact ⟨h.1 (strL "u1") (by decide), h.2.2.1 (strL "login") (by decide)⟩

/-- Counterexample for C5: on a deviating line (malformed timestamp) the
parser itself emits a warning diagnostic -- refuting "the parser emits no log
output" -- and its failure result is the bare `None`, which carries nothing,
rather than a value carrying the raw line. -/
theorem c5_parser_logs_on_failure :
    (parse_log_out badTsLine).1 = none ∧ (parse_log_out badTsLine).2 ≠ [] := by decide

/-- Claim C5 (amended): a line that deviates from the grammar (missing
segment separator, wrong field count, or malformed timestamp) yields the
failure result `None` -- never a partially populated record -- and the parser
itself emits exactly one warning diagnostic, which is what carries the
original raw line. -/
theorem c5_failure_diagnostics :
    (∀ s, regexMatch s = none → parse_log_out s = (none, [invalidMsg s])) ∧
    parse_log_out missingSepLine = (none, [invalidMsg missingSepLine]) ∧
    parse_log_out wrongCountLine = (none, [invalidMsg wrongCountLine]) ∧
    parse_log_out badTsLine = (none, [invalidMsg badTsLine]) := by
  refine ⟨fun s h => by simp [parse_log_out, h], by decide, by decide, by decide⟩

/-- Witness for C5: a line that is not a log line at all fails with the
`None` result and the single raw-line-carrying diagnostic. -/
theorem c5_failure_diagnostics_example :
    parse_log_out (strL "not a log line") =
      (none, [invalidMsg (strL "not a log line")]) :=
  c5_failure_diagnostics.1 (strL "not a log line") (by decide)

/-- Claim C6: in every execution of the ingestion loop, if persisting a
parsed record raises a store write error, the loop transitions to shutdown --
closing the stream source and the store connection -- without polling or
processing any further message, and without retrying the failed insert: the
events after the failing message are left over untouched and nothing beyond
the successful prefix is inserted. -/
theorem c6_store_failure_fail_fast (pre post : List PollEvent) (p : List Char)
    (r : LogRecord) (hpre : (runLoop pre).cause = StopCause.exhausted)
    (hp : parse_log p = some r) :
    runLoop (pre ++ PollEvent.message p false :: post) =
      ⟨(runLoop pre).inserted, (runLoop pre).invalid, StopCause.storeFailure, post,
       true, true⟩ := by
  have hstep : runLoop (PollEvent.message p false :: post) =
      ⟨[], [], StopCause.storeFailure, post, true, true⟩ := by
    simp [runLoop, hp]
  rw [runLoop_append _ hpre, hstep]
  simp

/-- Witness for C6: after one empty poll, a message whose insert fails stops
the loop with the store-failure cause, leaving the following event unpolled,
inserting nothing, and closing both connections. -/
theorem c6_fail_fast_example :
    runLoop ([PollEvent.noMessage] ++
        PollEvent.message exLine false :: [PollEvent.kafkaError 0]) =
      ⟨[], [], StopCause.storeFailure, [PollEvent.kafkaError 0], true, true⟩ :=
  (c6_store_failure_fail_fast [PollEvent.noMessage] [PollEvent.kafkaError 0] exLine
    exRecord (by decide) (by decide)).trans (by decide)

/-- Claim C7: a message whose payload fails to parse is discarded -- recorded
in the diagnostics, with no insert -- and the loop keeps running and polling:
the rest of the run is exactly the run of the remaining script, so a parse
failure is never fatal and the message is never retried. -/
theorem c7_parse_failure_discard_continue (pre post : List PollEvent) (p : List Char)
    (ok : Bool) (hpre : (runLoop pre).cause = StopCause.exhausted)
    (hp : parse_log p = none) :
    runLoop (pre ++ PollEvent.message p ok :: post) =
      ⟨(runLoop pre).inserted ++ (runLoop post).inserted,
       (runLoop pre).invalid ++ (p :: (runLoop post).invalid),
       (runLoop post).cause, (runLoop post).leftover, true, true⟩ := by
  have hstep : runLoop (PollEvent.message p ok :: post) =
      { runLoop post with invalid := p :: (runLoop post).invalid } := by
    simp [runLoop, hp]
  rw [runLoop_append _ hpre, hstep]

/-- Witness for C7: a malformed payload is discarded into the diagnostics,
nothing is inserted, and the loop goes on to process the rest of the script
(here: exhausting it). -/
theorem c7_discard_example :
    runLoop ([] ++ PollEvent.message (strL "junk") true :: []) =
      ⟨[], [strL "junk"], StopCause.exhausted, [], true, true⟩ :=
  (c7_parse_failure_discard_continue [] [] (strL "junk") true (by decide)
    (by decide)).trans (by decide)

/-- Claim C8: a poll outcome of no message, or of the end-of-partition stream
event, leaves the loop running (the run continues exactly with the remaining
script), while a stream error with any other code is fatal and shuts the loop
down; exactly the `PARTITION_EOF` code is treated as informational. -/
theorem c8_stream_error_classification (pre post : List PollEvent) (c : Int)
    (hpre : (runLoop pre).cause = StopCause.exhausted) :
    (runLoop (pre ++ PollEvent.noMessage :: post) =
      ⟨(runLoop pre).inserted ++ (runLoop post).inserted,
       (runLoop pre).invalid ++ (runLoop post).invalid,
       (runLoop post).cause, (runLoop post).leftover, true, true⟩) ∧
    (runLoop (pre ++ PollEvent.kafkaError PARTITION_EOF :: post) =
      ⟨(runLoop pre).inserted ++ (runLoop post).inserted,
       (runLoop pre).invalid ++ (runLoop post).invalid,
       (runLoop post).cause, (runLoop post).leftover, true, true⟩) ∧
    (c ≠ PARTITION_EOF →
      runLoop (pre ++ PollEvent.kafkaError c :: post) =
        ⟨(runLoop pre).inserted, (runLoop pre).invalid, StopCause.streamFatal c, post,
         true, true⟩) := by
  refine ⟨?_, ?_, ?_⟩
  · rw [runLoop_append _ hpre]
    simp [runLoop]
  · rw [runLoop_append _ hpre]
    simp [runLoop]
  · intro hc
    have hstep : runLoop (PollEvent.kafkaError c :: post) =
        ⟨[], [], StopCause.streamFatal c, post, true, true⟩ := by
      simp [runLoop, hc]
    rw [runLoop_append _ hpre, hstep]
    simp

/-- Witness for C8: a stream error with code 0 (not `PARTITION_EOF`) stops
the loop as fatal with both connections closed. -/
theorem c8_fatal_example :
    runLoop [PollEvent.kafkaError 0] =
      ⟨[], [], StopCause.streamFatal 0, [], true, true⟩ := by
  have h := c8_stream_error_classification [] [] 0 rfl
  have h3 := h.2.2 (by decide)
  simpa using h3

/-- Claim C9: the schema bootstrap is idempotent -- invoked on the empty
store it creates the `logs` table; invoked again on the result it returns
without error and leaves the store unchanged, so exactly one `logs` table
exists. -/
theorem c9_bootstrap_idempotent :
    create_log_table emptyStore = Except.ok bootedStore ∧
    create_log_table bootedStore = Except.ok bootedStore ∧
    countLogsTables bootedStore = 1 :=
  ⟨rfl, rfl, by decide⟩

/-- Claim C10: the parse operation is total over all inputs by construction
(`parse_log : List Char → Option LogRecord` is a total function returning
either the failure marker `none` or a full eighteen-component record), and on
every successful parse the `timestamp`, `log_id`, `event_type`, `user_id` and
`ip_address` components are present and non-empty, since their patterns each
require at least one character. -/
theorem c10_success_required_fields {s : List Char} {r : LogRecord}
    (h : parse_log s = some r) :
    r.timestamp ≠ [] ∧ r.log_id ≠ [] ∧ r.event_type ≠ [] ∧
    r.user_id ≠ none ∧ r.ip_address ≠ none := by
  unfold parse_log at h
  rcases hm : regexMatch s with _ | g
  · rw [hm] at h
    exact absurd h (by simp)
  · rw [hm] at h
    have hr : r = toRecord g := by
      cases h
      rfl
    subst hr
    obtain ⟨h1, h2, h3, h4, _, h6, _, _⟩ := regexMatch_inv hm
    refine ⟨h1, h2, h3, ?_, ?_⟩
    · simp [toRecord, replace_empty_ne h4]
    · simp [toRecord, replace_empty_ne h6]

/-- Witness for C10: the record of the example line has non-empty
`timestamp`, `log_id` and `event_type` and present `user_id` and
`ip_address`. -/
theorem c10_required_example :
    exRecord.timestamp ≠ [] ∧ exRecord.log_id ≠ [] ∧ exRecord.event_type ≠ [] ∧
    exRecord.user_id ≠ none ∧ exRecord.ip_address ≠ none :=
  c10_success_required_fields (show parse_log exLine = some exRecord by decide)

